import Mathlib

/-!
Shallow embedding of the transaction-api Go service (Gin + GORM + MySQL).

The embedding models:
- `internal/models/transaction.go` : the `Transaction` record, request/response
  shapes and the three-valued status enumeration;
- the `TransactionService` methods (create, get-by-id, list, update,
  soft-delete, dashboard summary) over an explicit in-memory store standing
  for the SQL table, with GORM soft-delete scoping made explicit;
- the `TransactionHandler` HTTP layer: request validation (go-playground
  validator tags), `strconv.ParseUint(idStr, 10, 32)` path-id parsing, and
  the standardized error bodies of `internal/middleware/error_handler.go`.

Machine floats (`float64` amounts) are modelled as exact rationals; Go `int`
query parameters as `Int`; `time.Time` as seconds since the epoch (`Nat`),
so that `Truncate(24 * time.Hour)` on a UTC time is flooring to a multiple
of 86400.
-/

/-- The status enumeration of `internal/models/transaction.go`
(`StatusPending | StatusSuccess | StatusFailed`). -/
inductive TransactionStatus where
  | pending
  | success
  | failed
deriving DecidableEq

/-- The string stored in the `status` column for each enumeration value. -/
def statusStr : TransactionStatus → String
  | .pending => "pending"
  | .success => "success"
  | .failed => "failed"

/-- One row of the `transactions` table (`models.Transaction`).
`deleted_at = none` means the row is live; `some ts` is the GORM
soft-delete marker. -/
structure Transaction where
  id : Nat
  user_id : Nat
  amount : ℚ
  status : TransactionStatus
  created_at : Nat
  updated_at : Nat
  deleted_at : Option Nat
deriving DecidableEq

/-- The SQL table plus the autoincrement counter. -/
structure Store where
  rows : List Transaction
  nextId : Nat
deriving DecidableEq

/-- A row is visible to GORM's default (soft-delete) scope iff
`deleted_at IS NULL`. -/
def isLive (t : Transaction) : Bool := t.deleted_at.isNone

/-- `db.First(&transaction, id)` under the default soft-delete scope:
the first row with this primary key and `deleted_at IS NULL`. -/
def findFirst (st : Store) (id : Nat) : Option Transaction :=
  (st.rows.filter (fun t => isLive t && t.id == id)).head?

/-- `db.Unscoped().First(&transaction, id)`: lookup including soft-deleted
rows (the explicit "include deleted" query mode). -/
def unscopedFind (st : Store) (id : Nat) : Option Transaction :=
  (st.rows.filter (fun t => t.id == id)).head?

/-- Primary keys are unique in the table (enforced by `gorm:"primaryKey"`
autoincrement in the schema). -/
def Wellformed (st : Store) : Prop :=
  st.rows.Pairwise (fun a b => a.id ≠ b.id)

/-- `models.TransactionRequest`: the POST /transactions body. -/
structure TransactionRequest where
  user_id : Nat
  amount : ℚ
deriving DecidableEq

/-- `models.TransactionQuery` after the handler has validated the status
string: the service-level list query. `user_id = 0` and `status = ""`
mean "no filter" in `GetTransactions`. -/
structure TransactionQuery where
  user_id : Nat
  status : String
  limit : Int
  page : Int
deriving DecidableEq

/-- `models.TransactionResponse`: the list-endpoint payload. -/
structure TransactionResponse where
  data : List Transaction
  total : Nat
  page : Int
  limit : Int
  total_pages : Nat
deriving DecidableEq

/-- An HTTP outcome: either a success status with a payload or an error
status with the short error code of `middleware.ErrorResponse.Error`. -/
inductive HResult (α : Type) where
  | ok (status : Nat) (value : α)
  | err (status : Nat) (code : String)
deriving DecidableEq

/-- The go-playground validator on `TransactionRequest`:
`user_id` tagged `required` (zero value fails), `amount` tagged
`required,gt=0` (zero fails `required`, negative fails `gt=0`). -/
def validateCreateReq (req : TransactionRequest) : Bool :=
  decide (req.user_id ≠ 0) && decide (req.amount ≠ 0) && decide (0 < req.amount)

/-- `TransactionService.CreateTransaction`: build the record with
`Status: StatusPending`; `db.Create` assigns the autoincrement id, sets
both timestamps to now and a NULL `deleted_at`, and appends the row. -/
def serviceCreate (st : Store) (req : TransactionRequest) (now : Nat) :
    Store × Transaction :=
  let t : Transaction :=
    { id := st.nextId
      user_id := req.user_id
      amount := req.amount
      status := .pending
      created_at := now
      updated_at := now
      deleted_at := none }
  ({ rows := st.rows ++ [t], nextId := st.nextId + 1 }, t)

/-- `TransactionHandler.CreateTransaction`: bind the JSON body, run the
validator (failure → 400 `validation_error` via `SendValidationError`),
then call the service and reply 201 with the created record. -/
def handleCreate (st : Store) (req : TransactionRequest) (now : Nat) :
    Store × HResult Transaction :=
  if validateCreateReq req then
    let r := serviceCreate st req now
    (r.1, HResult.ok 201 r.2)
  else
    (st, HResult.err 400 "validation_error")

/-- `TransactionService.GetTransactionByID`: `db.First` under the default
scope; `gorm.ErrRecordNotFound` becomes the error string
"transaction not found". -/
def serviceGetByID (st : Store) (id : Nat) : Except String Transaction :=
  match findFirst st id with
  | none => .error "transaction not found"
  | some t => .ok t

/-- `TransactionService.UpdateTransaction`: fetch under the default scope
(absent or soft-deleted → "transaction not found"), overwrite the struct's
status, then `db.Save` writes all columns back under the primary key
(scoped to live rows) and bumps `updated_at` to now. -/
def serviceUpdate (st : Store) (id : Nat) (ns : TransactionStatus) (now : Nat) :
    Except String (Store × Transaction) :=
  match findFirst st id with
  | none => .error "transaction not found"
  | some t =>
    let t2 : Transaction := { t with status := ns, updated_at := now }
    .ok ({ st with
            rows := st.rows.map (fun r => if r.id == id && isLive r then t2 else r) },
         t2)

/-- `TransactionService.DeleteTransaction`: fetch under the default scope
(absent or soft-deleted → "transaction not found"), then `db.Delete`
soft-deletes: `UPDATE ... SET deleted_at = now` on the live row with this
primary key. -/
def serviceDelete (st : Store) (id : Nat) (now : Nat) : Except String Store :=
  match findFirst st id with
  | none => .error "transaction not found"
  | some _ =>
    .ok { st with
           rows := st.rows.map
             (fun r => if r.id == id && isLive r then { r with deleted_at := some now } else r) }

/-- `created_at DESC`: the SQL ordering used by the list endpoint and the
dashboard's recent-transactions query. -/
def createdGe (a b : Transaction) : Prop := b.created_at ≤ a.created_at

instance : DecidableRel createdGe := fun a b =>
  inferInstanceAs (Decidable (b.created_at ≤ a.created_at))

instance : IsTotal Transaction createdGe :=
  ⟨fun a b => (Nat.le_total b.created_at a.created_at).imp id id⟩

instance : IsTrans Transaction createdGe :=
  ⟨fun _ _ _ h1 h2 => Nat.le_trans h2 h1⟩

/-- The WHERE clause built by `GetTransactions` (on top of the default
soft-delete scope): optional `user_id` exact match when nonzero, optional
`status` exact match when nonempty. -/
def matchesFilter (q : TransactionQuery) (t : Transaction) : Bool :=
  isLive t
    && (q.user_id == 0 || t.user_id == q.user_id)
    && (q.status == "" || statusStr t.status == q.status)

/-- `TransactionService.GetTransactions`: count the filtered rows first,
default `limit` to 10 and `page` to 1 when non-positive, take the window
`OFFSET (page-1)*limit LIMIT limit` of the rows ordered by
`created_at DESC`, and report `total_pages = ceil(total / limit)`. -/
def getTransactions (st : Store) (q : TransactionQuery) : TransactionResponse :=
  let matching := st.rows.filter (matchesFilter q)
  let total := matching.length
  let limit : Int := if q.limit ≤ 0 then 10 else q.limit
  let page : Int := if q.page ≤ 0 then 1 else q.page
  let offset : Int := (page - 1) * limit
  let sorted := List.insertionSort createdGe matching
  let window := (sorted.drop offset.toNat).take limit.toNat
  { data := window
    total := total
    page := page
    limit := limit
    total_pages := (total + limit.toNat - 1) / limit.toNat }

/-- `strconv.ParseUint(s, 10, 32)` digit loop: base-10 accumulation,
failing on any non-digit character. -/
def runDigits : List Char → Nat → Option Nat
  | [], acc => some acc
  | c :: cs, acc =>
    if '0' ≤ c ∧ c ≤ '9' then
      runDigits cs (acc * 10 + (c.toNat - '0'.toNat))
    else
      none

/-- `strconv.ParseUint(idStr, 10, 32)`: rejects the empty string, any
sign or non-digit character (base 10 admits no prefix, sign or
underscore), and any value above `2^32 - 1` (range error). -/
def parseUint32 (s : String) : Option Nat :=
  if s.data = [] then none
  else
    match runDigits s.data 0 with
    | none => none
    | some n => if n ≤ 2 ^ 32 - 1 then some n else none

/-- The `oneof=pending success failed` validator tag / the handler's
status whitelist: exactly the three case-sensitive strings. -/
def parseStatus (s : String) : Option TransactionStatus :=
  if s = "pending" then some .pending
  else if s = "success" then some .success
  else if s = "failed" then some .failed
  else none

/-- `TransactionHandler.GetTransactionByID`: parse the path id as an
unsigned 32-bit decimal (failure → 400 `invalid_id` before any store
access), then map the service result ("transaction not found" → 404,
other errors → 500). -/
def handleGetByID (st : Store) (idStr : String) : HResult Transaction :=
  match parseUint32 idStr with
  | none => HResult.err 400 "invalid_id"
  | some id =>
    match serviceGetByID st id with
    | .error e =>
      if e = "transaction not found" then HResult.err 404 "not_found"
      else HResult.err 500 "internal_server_error"
    | .ok t => HResult.ok 200 t

/-- `TransactionHandler.UpdateTransaction`: parse the path id first
(failure → 400 `invalid_id`), then bind and validate the body (an invalid
status fails the `required,oneof` tags → 400 `validation_error` via
`SendValidationError`), then call the service. -/
def handleUpdate (st : Store) (idStr : String) (statusField : String) (now : Nat) :
    Store × HResult Transaction :=
  match parseUint32 idStr with
  | none => (st, HResult.err 400 "invalid_id")
  | some id =>
    match parseStatus statusField with
    | none => (st, HResult.err 400 "validation_error")
    | some ns =>
      match serviceUpdate st id ns now with
      | .error e =>
        (st, if e = "transaction not found" then HResult.err 404 "not_found"
             else HResult.err 500 "internal_server_error")
      | .ok (st2, t) => (st2, HResult.ok 200 t)

/-- `TransactionHandler.DeleteTransaction`: parse the path id (failure →
400 `invalid_id`), then call the service; success is 204 No Content. -/
def handleDelete (st : Store) (idStr : String) (now : Nat) :
    Store × HResult Unit :=
  match parseUint32 idStr with
  | none => (st, HResult.err 400 "invalid_id")
  | some id =>
    match serviceDelete st id now with
    | .error e =>
      (st, if e = "transaction not found" then HResult.err 404 "not_found"
           else HResult.err 500 "internal_server_error")
    | .ok st2 => (st2, HResult.ok 204 ())

/-- `TransactionHandler.GetTransactions`: bind the query, reject a
nonempty status string outside the enumeration with 400 `invalid_status`,
otherwise answer 200 with the service response. -/
def handleList (st : Store) (q : TransactionQuery) : HResult TransactionResponse :=
  if q.status ≠ "" ∧ parseStatus q.status = none then
    HResult.err 400 "invalid_status"
  else
    HResult.ok 200 (getTransactions st q)

/-- `models.DashboardSummary` (the `status_distribution` map is modelled as
the count function the `GROUP BY status` query computes for each group). -/
structure DashboardSummary where
  total_success_today : Nat
  average_amount_per_user : ℚ
  total_transactions : Nat
  recent_transactions : List Transaction
  total_amount : ℚ
  total_amount_today : ℚ
  status_distribution : TransactionStatus → Nat

/-- `time.Now().UTC().Truncate(24 * time.Hour)`: Go's `Truncate` rounds a
UTC instant down to a multiple of 24h since the (midnight-aligned) zero
time, i.e. to midnight UTC of the current day. -/
def midnightUTC (now : Nat) : Nat := now / 86400 * 86400

/-- The rows selected by `WHERE status = 'success'` under the default
soft-delete scope. -/
def successRows (st : Store) : List Transaction :=
  st.rows.filter (fun t => isLive t && t.status == TransactionStatus.success)

/-- The rows selected by
`WHERE status = 'success' AND created_at >= today AND created_at < tomorrow`
under the default soft-delete scope, with `today`/`tomorrow` the bounds of
the current UTC calendar day. -/
def successTodayRows (st : Store) (now : Nat) : List Transaction :=
  st.rows.filter
    (fun t => isLive t && t.status == TransactionStatus.success
      && midnightUTC now ≤ t.created_at && t.created_at < midnightUTC now + 86400)

/-- `TransactionService.GetDashboardSummary`: six independent aggregate
queries, each under the default soft-delete scope. SQL `SUM`/`AVG` over an
empty selection yields NULL, which GORM scans into the zero value `0`. -/
def getDashboardSummary (st : Store) (now : Nat) : DashboardSummary :=
  let live := st.rows.filter (fun t => isLive t)
  { total_success_today := (successTodayRows st now).length
    average_amount_per_user :=
      if (successRows st).length = 0 then 0
      else ((successRows st).map (fun t => t.amount)).sum / ((successRows st).length : ℚ)
    total_transactions := live.length
    recent_transactions := (List.insertionSort createdGe live).take 10
    total_amount := ((successRows st).map (fun t => t.amount)).sum
    total_amount_today := ((successTodayRows st now).map (fun t => t.amount)).sum
    status_distribution := fun s =>
      (st.rows.filter (fun t => isLive t && t.status == s)).length }

/-- `TransactionHandler.HealthCheck` ignores its receiver's service and
store entirely; model the system state it could in principle observe. -/
structure SystemState where
  store : Store
  dbReachable : Bool

/-- `Database.Ping`: reports reachability of the underlying database. -/
def dbPing (sys : SystemState) : Bool := sys.dbReachable

/-- The GET /health handler body: an unconditional
`200 {status: "healthy", service: "transaction-api", timestamp: now}`. -/
def healthCheck (sys : SystemState) (now : Nat) : HResult (String × String × Nat) :=
  match sys with
  | _ => HResult.ok 200 ("healthy", "transaction-api", now)

/-! ### Helper lemmas about the store primitives -/

/-- A record returned by the default-scope lookup is a live member of the
table carrying the requested primary key. -/
theorem findFirst_mem {st : Store} {id : Nat} {t : Transaction}
    (h : findFirst st id = some t) :
    t ∈ st.rows ∧ isLive t = true ∧ t.id = id := by
  unfold findFirst at h
  have h1 : t ∈ st.rows.filter (fun t => isLive t && t.id == id) :=
    List.mem_of_mem_head? (h ▸ rfl)
  have h2 := List.mem_filter.mp h1
  refine ⟨h2.1, ?_, ?_⟩
  · have := h2.2
    simp only [Bool.and_eq_true] at this
    exact this.1
  · have := h2.2
    simp only [Bool.and_eq_true, beq_iff_eq] at this
    exact this.2

/-- The default-scope lookup fails exactly when no live row carries the
requested primary key (the row is absent or soft-deleted). -/
theorem findFirst_eq_none_iff {st : Store} {id : Nat} :
    findFirst st id = none ↔ ∀ r ∈ st.rows, isLive r = true → r.id ≠ id := by
  unfold findFirst
  rw [List.head?_eq_none_iff, List.filter_eq_nil_iff]
  constructor
  · intro h r hr hl hid
    exact h r hr (by simp [hl, hid])
  · intro h r hr hb
    simp only [Bool.and_eq_true, beq_iff_eq] at hb
    exact h r hr hb.1 hb.2

/-- Rows of a duplicate-free table with the same primary key coincide. -/
theorem pairwise_id_unique {l : List Transaction}
    (hw : l.Pairwise (fun a b => a.id ≠ b.id)) :
    ∀ {a b : Transaction}, a ∈ l → b ∈ l → a.id = b.id → a = b := by
  induction hw with
  | nil =>
    intro a b ha _ _
    exact absurd ha (List.not_mem_nil a)
  | cons h _ ih =>
    intro a b ha hb hid
    rcases List.mem_cons.mp ha with rfl | ha2 <;>
      rcases List.mem_cons.mp hb with rfl | hb2
    · rfl
    · exact absurd hid (h b hb2)
    · exact absurd hid.symm (h a ha2)
    · exact ih ha2 hb2 hid

/-- In a wellformed table, two rows with the same primary key coincide. -/
theorem wellformed_id_unique {st : Store} (hw : Wellformed st) :
    ∀ {a b : Transaction}, a ∈ st.rows → b ∈ st.rows → a.id = b.id → a = b :=
  pairwise_id_unique hw

/-! ### Claim theorems -/

/-- Claim C1: Create(user_id, amount) fails with a 400 validation error if
`amount <= 0` or `user_id` is missing/zero, and for every request with
`amount > 0` and nonzero `user_id` it succeeds, inserting a record with
status `pending` and returning that created record. -/
theorem C1_create_validation (st : Store) (req : TransactionRequest) (now : Nat) :
    (req.amount ≤ 0 ∨ req.user_id = 0 →
      handleCreate st req now = (st, HResult.err 400 "validation_error")) ∧
    (0 < req.amount ∧ req.user_id ≠ 0 →
      ∃ t, handleCreate st req now =
          ({ rows := st.rows ++ [t], nextId := st.nextId + 1 }, HResult.ok 201 t) ∧
        t.status = TransactionStatus.pending ∧
        t.user_id = req.user_id ∧ t.amount = req.amount ∧
        t.created_at = now ∧ t.deleted_at = none) := by
  constructor
  · intro h
    have hv : validateCreateReq req = false := by
      unfold validateCreateReq
      rcases h with h | h
      · rcases lt_or_eq_of_le h with h | h
        · simp [not_lt_of_gt h]
        · simp [h]
      · simp [h]
    simp [handleCreate, hv]
  · rintro ⟨h1, h2⟩
    have hv : validateCreateReq req = true := by
      unfold validateCreateReq
      simp [h2, ne_of_gt h1, h1]
    refine ⟨(serviceCreate st req now).2, ?_, rfl, rfl, rfl, rfl, rfl⟩
    simp [handleCreate, hv, serviceCreate]

/-- Witness for C1 at a rejected request (`amount = -2`) and an accepted
one (`user_id = 7`, `amount = 5`). -/
theorem C1_create_validation_witness :
    handleCreate ⟨[], 1⟩ ⟨7, -2⟩ 0 = (⟨[], 1⟩, HResult.err 400 "validation_error") ∧
    ∃ t, handleCreate ⟨[], 1⟩ ⟨7, 5⟩ 0 =
        ({ rows := [] ++ [t], nextId := 2 }, HResult.ok 201 t) ∧
      t.status = TransactionStatus.pending ∧
      t.user_id = 7 ∧ t.amount = 5 ∧ t.created_at = 0 ∧ t.deleted_at = none :=
  ⟨(C1_create_validation ⟨[], 1⟩ ⟨7, -2⟩ 0).1 (Or.inl (by norm_num)),
   (C1_create_validation ⟨[], 1⟩ ⟨7, 5⟩ 0).2 ⟨by norm_num, by decide⟩⟩

/-- Claim C9: GET /health returns 200 with status "healthy" unconditionally;
the handler never consults the store, so it reports healthy even when the
database is unreachable (`Database.Ping` exists but is never called). -/
theorem C9_health_unconditional (sys : SystemState) (now : Nat) :
    healthCheck sys now = HResult.ok 200 ("healthy", "transaction-api", now) ∧
    (dbPing sys = false →
      healthCheck sys now = HResult.ok 200 ("healthy", "transaction-api", now)) ∧
    (∀ sys2 : SystemState, healthCheck sys now = healthCheck sys2 now) :=
  ⟨rfl, fun _ => rfl, fun _ => rfl⟩

/-- Witness for C9 at a system state whose database is unreachable. -/
theorem C9_health_unconditional_witness :
    dbPing ⟨⟨[], 1⟩, false⟩ = false ∧
    healthCheck ⟨⟨[], 1⟩, false⟩ 0 = HResult.ok 200 ("healthy", "transaction-api", 0) :=
  ⟨rfl, (C9_health_unconditional ⟨⟨[], 1⟩, false⟩ 0).2.1 rfl⟩

/-- The digit loop fails whenever the input contains a non-digit
character. -/
theorem runDigits_eq_none_of_bad {l : List Char}
    (h : ∃ c ∈ l, ¬('0' ≤ c ∧ c ≤ '9')) :
    ∀ acc, runDigits l acc = none := by
  induction l with
  | nil => simp at h
  | cons c cs ih =>
    intro acc
    by_cases hc : '0' ≤ c ∧ c ≤ '9'
    · rcases h with ⟨d, hd, hbad⟩
      rcases List.mem_cons.mp hd with rfl | hmem
      · exact absurd hc hbad
      · simp only [runDigits, if_pos hc]
        exact ih ⟨d, hmem, hbad⟩ _
    · simp only [runDigits, if_neg hc]

/-- `strconv.ParseUint(s, 10, 32)` fails on any string containing a
non-digit character (in particular any sign), and on any digit string
whose value exceeds `2^32 - 1`. -/
theorem parseUint32_eq_none {s : String}
    (h : (∃ c ∈ s.data, ¬('0' ≤ c ∧ c ≤ '9')) ∨
         (∃ n, runDigits s.data 0 = some n ∧ 2 ^ 32 - 1 < n)) :
    parseUint32 s = none := by
  unfold parseUint32
  by_cases he : s.data = []
  · simp [he]
  · rcases h with h | ⟨n, hn, hlt⟩
    · rw [if_neg he, runDigits_eq_none_of_bad h 0]
    · rw [if_neg he, hn]
      have hn2 : ¬ n ≤ 2 ^ 32 - 1 := Nat.not_le.mpr hlt
      simp only [if_neg hn2]

/-- Claim C10: for every id-bearing route, the path id is parsed as an
unsigned 32-bit decimal integer; any id string that is negative,
non-numeric, or greater than `2^32 - 1` yields 400 `invalid_id` (never
404) on GET, PUT and DELETE, and the store is neither consulted nor
changed. -/
theorem C10_invalid_id (st st2 : Store) (idStr statusField : String) (now : Nat)
    (h : (∃ c ∈ idStr.data, ¬('0' ≤ c ∧ c ≤ '9')) ∨
         (∃ n, runDigits idStr.data 0 = some n ∧ 2 ^ 32 - 1 < n)) :
    handleGetByID st idStr = HResult.err 400 "invalid_id" ∧
    handleGetByID st idStr = handleGetByID st2 idStr ∧
    handleUpdate st idStr statusField now = (st, HResult.err 400 "invalid_id") ∧
    handleDelete st idStr now = (st, HResult.err 400 "invalid_id") := by
  have hp := parseUint32_eq_none h
  refine ⟨?_, ?_, ?_, ?_⟩ <;>
    simp [handleGetByID, handleUpdate, handleDelete, hp]

/-- Witness for C10 at the out-of-range id string "4294967296" (= 2^32)
and the non-numeric id string "-1". -/
theorem C10_invalid_id_witness :
    handleGetByID ⟨[], 1⟩ "4294967296" = HResult.err 400 "invalid_id" ∧
    handleUpdate ⟨[], 1⟩ "4294967296" "pending" 0 = (⟨[], 1⟩, HResult.err 400 "invalid_id") ∧
    handleDelete ⟨[], 1⟩ "-1" 0 = (⟨[], 1⟩, HResult.err 400 "invalid_id") := by
  have h1 := C10_invalid_id ⟨[], 1⟩ ⟨[], 1⟩ "4294967296" "pending" 0
    (Or.inr ⟨4294967296, by decide, by norm_num⟩)
  have h2 := C10_invalid_id ⟨[], 1⟩ ⟨[], 1⟩ "-1" "pending" 0
    (Or.inl ⟨'-', by decide, by decide⟩)
  exact ⟨h1.1, h1.2.2.1, h2.2.2.2⟩

/-- Counterexample to claim C4 as stated: an invalid status in the PUT
body ("PENDING", wrong case) is rejected by the `required,oneof` validator
through `SendValidationError`, whose error code is `validation_error`,
not `invalid_status`. -/
theorem C4_status_code_counterexample :
    (handleUpdate ⟨[], 1⟩ "1" "PENDING" 0).2 = HResult.err 400 "validation_error" ∧
    (handleUpdate ⟨[], 1⟩ "1" "PENDING" 0).2 ≠ HResult.err 400 "invalid_status" := by
  constructor
  · rfl
  · intro h
    simp [handleUpdate, parseUint32, runDigits, parseStatus] at h

/-- Claim C4 (amended): exactly the case-sensitive strings `pending`,
`success`, `failed` are accepted as status values by the list filter and
by the update body; any other status is rejected with HTTP 400 — with
error code `invalid_status` on the list filter (for a nonempty status)
but `validation_error` on the update body. -/
theorem C4_status_gate (st : Store) (s : String) (uid : Nat) (l p : Int)
    (idStr : String) (id : Nat) (now : Nat) :
    ((s = "pending" ∨ s = "success" ∨ s = "failed") ↔ parseStatus s ≠ none) ∧
    (parseStatus s = none → s ≠ "" →
      handleList st ⟨uid, s, l, p⟩ = HResult.err 400 "invalid_status") ∧
    (parseStatus s = none → parseUint32 idStr = some id →
      handleUpdate st idStr s now = (st, HResult.err 400 "validation_error")) ∧
    (parseStatus s ≠ none →
      handleList st ⟨uid, s, l, p⟩ = HResult.ok 200 (getTransactions st ⟨uid, s, l, p⟩)) := by
  refine ⟨?_, ?_, ?_, ?_⟩
  · unfold parseStatus
    constructor
    · rintro (rfl | rfl | rfl) <;> simp
    · intro h
      by_cases h1 : s = "pending"
      · exact Or.inl h1
      by_cases h2 : s = "success"
      · exact Or.inr (Or.inl h2)
      by_cases h3 : s = "failed"
      · exact Or.inr (Or.inr h3)
      · simp [h1, h2, h3] at h
  · intro hbad hne
    simp [handleList, hbad, hne]
  · intro hbad hid
    simp [handleUpdate, hid, hbad]
  · intro hgood
    simp [handleList, hgood]

/-- Witness for C4 (amended) at the invalid status string "PENDING". -/
theorem C4_status_gate_witness :
    handleList ⟨[], 1⟩ ⟨0, "PENDING", 10, 1⟩ = HResult.err 400 "invalid_status" ∧
    handleUpdate ⟨[], 1⟩ "1" "PENDING" 5 = (⟨[], 1⟩, HResult.err 400 "validation_error") := by
  have h := C4_status_gate ⟨[], 1⟩ "PENDING" 0 10 1 "1" 1 5
  exact ⟨h.2.1 (by decide) (by decide), h.2.2.1 (by decide) (by decide)⟩

/-- Following the spec sentence for C3: "sum of `amount` over records with
`status = success` (0 if none)", over non-deleted records. -/
def specTotalAmount (st : Store) : ℚ :=
  ((st.rows.filter (fun t =>
      decide (t.deleted_at = none ∧ t.status = TransactionStatus.success))).map
    (fun t => t.amount)).sum

/-- Following the spec sentence for C3/C8: the non-deleted success records
whose `created_at` lies in the half-open UTC calendar-day window
`[midnight_UTC(now), midnight_UTC(now) + 24h)`. -/
def specTodayRows (st : Store) (now : Nat) : List Transaction :=
  st.rows.filter (fun t =>
    decide (t.deleted_at = none ∧ t.status = TransactionStatus.success ∧
      midnightUTC now ≤ t.created_at ∧ t.created_at < midnightUTC now + 86400))

/-- Following the spec sentence for C3: "sum of `amount` over records with
`status = success` and `created_at` in today's UTC window (0 if none)". -/
def specTotalAmountToday (st : Store) (now : Nat) : ℚ :=
  ((specTodayRows st now).map (fun t => t.amount)).sum

/-- The `==` of the derived `BEq` on statuses decides propositional
equality. -/
theorem statusBeq_eq_decide (a b : TransactionStatus) : (a == b) = decide (a = b) := by
  cases a <;> cases b <;> rfl

/-- The code-side success selection coincides with the spec-side one. -/
theorem successRows_eq_spec (st : Store) :
    successRows st =
      st.rows.filter (fun t =>
        decide (t.deleted_at = none ∧ t.status = TransactionStatus.success)) := by
  unfold successRows
  apply List.filter_congr
  intro t _
  cases h : t.deleted_at <;> simp [isLive, h, statusBeq_eq_decide]

/-- The code-side today-success selection coincides with the spec-side one. -/
theorem successTodayRows_eq_spec (st : Store) (now : Nat) :
    successTodayRows st now = specTodayRows st now := by
  unfold successTodayRows specTodayRows
  apply List.filter_congr
  intro t _
  cases h : t.deleted_at <;>
    simp [isLive, h, statusBeq_eq_decide, Bool.and_assoc]

/-- Claim C3: DashboardSummary's `total_amount` is the sum of `amount`
over non-deleted success records, `total_amount_today` the sum over
non-deleted success records created in today's UTC window, and both are
0 (rather than a failure or null) when no record matches. -/
theorem C3_dashboard_sums (st : Store) (now : Nat) :
    (getDashboardSummary st now).total_amount = specTotalAmount st ∧
    (getDashboardSummary st now).total_amount_today = specTotalAmountToday st now ∧
    ((st.rows.filter (fun t =>
        decide (t.deleted_at = none ∧ t.status = TransactionStatus.success))) = [] →
      (getDashboardSummary st now).total_amount = 0) ∧
    (specTodayRows st now = [] →
      (getDashboardSummary st now).total_amount_today = 0) := by
  have h1 : (getDashboardSummary st now).total_amount = specTotalAmount st := by
    show ((successRows st).map (fun t => t.amount)).sum = _
    rw [successRows_eq_spec]
    rfl
  have h2 : (getDashboardSummary st now).total_amount_today = specTotalAmountToday st now := by
    show ((successTodayRows st now).map (fun t => t.amount)).sum = _
    rw [successTodayRows_eq_spec]
    rfl
  refine ⟨h1, h2, ?_, ?_⟩
  · intro he
    rw [h1]
    unfold specTotalAmount
    rw [he]
    rfl
  · intro he
    rw [h2]
    unfold specTotalAmountToday
    rw [he]
    rfl

/-- Witness for C3 at an empty store: both sums are 0 when nothing
matches. -/
theorem C3_dashboard_sums_witness :
    (getDashboardSummary ⟨[], 1⟩ 0).total_amount = 0 ∧
    (getDashboardSummary ⟨[], 1⟩ 0).total_amount_today = 0 :=
  ⟨(C3_dashboard_sums ⟨[], 1⟩ 0).2.2.1 rfl, (C3_dashboard_sums ⟨[], 1⟩ 0).2.2.2 rfl⟩

/-- Claim C8: DashboardSummary's `total_success_today` counts the
non-deleted success records whose `created_at` lies in the half-open UTC
calendar-day interval `[midnight_UTC(now), midnight_UTC(now) + 24h)`. -/
theorem C8_success_today_count (st : Store) (now : Nat) :
    (getDashboardSummary st now).total_success_today = (specTodayRows st now).length := by
  show (successTodayRows st now).length = _
  rw [successTodayRows_eq_spec]

/-- Claim C7: with at least one non-deleted success record,
`average_amount_per_user` is the arithmetic mean of `amount` over all
non-deleted success records, not grouped by user. -/
theorem C7_average_amount (st : Store) (now : Nat) (h : successRows st ≠ []) :
    (getDashboardSummary st now).average_amount_per_user =
      ((successRows st).map (fun t => t.amount)).sum / ((successRows st).length : ℚ) := by
  have hlen : (successRows st).length ≠ 0 := fun hc => h (List.length_eq_zero.mp hc)
  show (if (successRows st).length = 0 then 0
        else ((successRows st).map (fun t => t.amount)).sum / ((successRows st).length : ℚ)) = _
  rw [if_neg hlen]

/-- Witness for C7 at the spec's example: success amounts 100, 200, 300
(spread over two users) average to 200. -/
theorem C7_average_amount_witness :
    (getDashboardSummary
      ⟨[⟨1, 1, 100, TransactionStatus.success, 3600, 3600, none⟩,
        ⟨2, 1, 200, TransactionStatus.success, 7200, 7200, none⟩,
        ⟨3, 2, 300, TransactionStatus.success, 1000, 1000, none⟩], 4⟩
      10000).average_amount_per_user = 200 := by
  rw [C7_average_amount
    ⟨[⟨1, 1, 100, TransactionStatus.success, 3600, 3600, none⟩,
      ⟨2, 1, 200, TransactionStatus.success, 7200, 7200, none⟩,
      ⟨3, 2, 300, TransactionStatus.success, 1000, 1000, none⟩], 4⟩
    10000 (by decide)]
  norm_num [successRows, isLive]

/-- Characterisation of the ceiling `total_pages = (T + L - 1) / L`
computed by the list endpoint: it is 0 for an empty selection, and
otherwise the least page count whose pages of size `L` cover `T` rows. -/
theorem ceil_div_spec (T L : Nat) (hL : 0 < L) :
    (T = 0 → (T + L - 1) / L = 0) ∧
    (0 < T → ((T + L - 1) / L - 1) * L < T ∧ T ≤ ((T + L - 1) / L) * L) := by
  constructor
  · rintro rfl
    exact Nat.div_eq_of_lt (by omega)
  · intro hT
    have h1 : T + L - 1 = (T - 1) + L := by omega
    have h2 : ((T - 1) + L) / L = (T - 1) / L + 1 := Nat.add_div_right _ hL
    have h3 : L * ((T - 1) / L) + (T - 1) % L = T - 1 := Nat.div_add_mod _ _
    have h4 : (T - 1) % L < L := Nat.mod_lt _ hL
    rw [h1, h2]
    constructor
    · have h5 : (T - 1) / L * L ≤ T - 1 := Nat.div_mul_le_self _ _
      calc ((T - 1) / L + 1 - 1) * L = (T - 1) / L * L := by rw [Nat.add_sub_cancel]
        _ ≤ T - 1 := h5
        _ < T := by omega
    · have hTeq : L * ((T - 1) / L) + (T - 1) % L + 1 = T := by rw [h3]; omega
      calc T = L * ((T - 1) / L) + (T - 1) % L + 1 := hTeq.symm
        _ = L * ((T - 1) / L) + ((T - 1) % L + 1) := by ring
        _ ≤ L * ((T - 1) / L) + L := Nat.add_le_add_left h4 _
        _ = ((T - 1) / L + 1) * L := by ring

/-- Claim C2: List defaults `page` to 1 and `limit` to 10 when
non-positive, computes `offset = (page - 1) * limit`, returns at most
`limit` records ordered by `created_at` descending and drawn from the
filter's matches, and returns the total matching count (independent of
the page window) with `total_pages = ceil(total / limit)`, 0 when
`total = 0`. -/
theorem C2_list_pagination (st : Store) (q : TransactionQuery) :
    (getTransactions st q).limit = (if q.limit ≤ 0 then 10 else q.limit) ∧
    (getTransactions st q).page = (if q.page ≤ 0 then 1 else q.page) ∧
    (getTransactions st q).total = (st.rows.filter (matchesFilter q)).length ∧
    (getTransactions st q).data =
      ((List.insertionSort createdGe (st.rows.filter (matchesFilter q))).drop
        (((getTransactions st q).page - 1) * (getTransactions st q).limit).toNat).take
        (getTransactions st q).limit.toNat ∧
    (getTransactions st q).data.length ≤ (getTransactions st q).limit.toNat ∧
    List.Sorted createdGe (getTransactions st q).data ∧
    (∀ t ∈ (getTransactions st q).data, matchesFilter q t = true) ∧
    ((getTransactions st q).total = 0 → (getTransactions st q).total_pages = 0) ∧
    (0 < (getTransactions st q).total →
      ((getTransactions st q).total_pages - 1) * (getTransactions st q).limit.toNat <
        (getTransactions st q).total ∧
      (getTransactions st q).total ≤
        (getTransactions st q).total_pages * (getTransactions st q).limit.toNat) := by
  have hLpos : 0 < (getTransactions st q).limit.toNat := by
    show 0 < (if q.limit ≤ 0 then (10 : Int) else q.limit).toNat
    split <;> omega
  have hdata : (getTransactions st q).data =
      ((List.insertionSort createdGe (st.rows.filter (matchesFilter q))).drop
        (((getTransactions st q).page - 1) * (getTransactions st q).limit).toNat).take
        (getTransactions st q).limit.toNat := rfl
  have hsub : (getTransactions st q).data.Sublist
      (List.insertionSort createdGe (st.rows.filter (matchesFilter q))) := by
    rw [hdata]
    exact (List.take_sublist _ _).trans (List.drop_sublist _ _)
  have hceil := ceil_div_spec (st.rows.filter (matchesFilter q)).length
    (getTransactions st q).limit.toNat hLpos
  refine ⟨rfl, rfl, rfl, hdata, ?_, ?_, ?_, hceil.1, hceil.2⟩
  · rw [hdata, List.length_take]
    exact min_le_left _ _
  · exact List.Pairwise.sublist hsub
      (List.sorted_insertionSort createdGe (st.rows.filter (matchesFilter q)))
  · intro t ht
    have h1 : t ∈ List.insertionSort createdGe (st.rows.filter (matchesFilter q)) :=
      hsub.subset ht
    have h2 : t ∈ st.rows.filter (matchesFilter q) :=
      (List.perm_insertionSort createdGe _).mem_iff.mp h1
    exact (List.mem_filter.mp h2).2

/-- Witness for C2: three matching rows with `limit = 2`, `page = 1` give
`total = 3` and a covering `total_pages`. -/
theorem C2_list_pagination_witness :
    0 < (getTransactions
      ⟨[⟨1, 1, 10, TransactionStatus.pending, 1, 1, none⟩,
        ⟨2, 1, 20, TransactionStatus.success, 2, 2, none⟩,
        ⟨3, 2, 30, TransactionStatus.failed, 3, 3, none⟩], 4⟩
      ⟨0, "", 2, 1⟩).total ∧
    ((getTransactions
      ⟨[⟨1, 1, 10, TransactionStatus.pending, 1, 1, none⟩,
        ⟨2, 1, 20, TransactionStatus.success, 2, 2, none⟩,
        ⟨3, 2, 30, TransactionStatus.failed, 3, 3, none⟩], 4⟩
      ⟨0, "", 2, 1⟩).total_pages - 1) *
      (getTransactions
        ⟨[⟨1, 1, 10, TransactionStatus.pending, 1, 1, none⟩,
          ⟨2, 1, 20, TransactionStatus.success, 2, 2, none⟩,
          ⟨3, 2, 30, TransactionStatus.failed, 3, 3, none⟩], 4⟩
        ⟨0, "", 2, 1⟩).limit.toNat <
      (getTransactions
        ⟨[⟨1, 1, 10, TransactionStatus.pending, 1, 1, none⟩,
          ⟨2, 1, 20, TransactionStatus.success, 2, 2, none⟩,
          ⟨3, 2, 30, TransactionStatus.failed, 3, 3, none⟩], 4⟩
        ⟨0, "", 2, 1⟩).total :=
  ⟨by decide,
   ((C2_list_pagination
      ⟨[⟨1, 1, 10, TransactionStatus.pending, 1, 1, none⟩,
        ⟨2, 1, 20, TransactionStatus.success, 2, 2, none⟩,
        ⟨3, 2, 30, TransactionStatus.failed, 3, 3, none⟩], 4⟩
      ⟨0, "", 2, 1⟩).2.2.2.2.2.2.2.2 (by decide)).1⟩

/-- Claim C5: for every existing non-deleted record, Update(id, new_status)
changes only `status` and bumps `updated_at`, leaving `id`, `user_id`,
`amount` and `created_at` unchanged (and every other row untouched); for
every id that is absent or soft-deleted it fails with NotFound. -/
theorem C5_update_frame (st : Store) (id : Nat) (ns : TransactionStatus) (now : Nat)
    (hw : Wellformed st) :
    (findFirst st id = none ↔ ∀ r ∈ st.rows, isLive r = true → r.id ≠ id) ∧
    (findFirst st id = none →
      serviceUpdate st id ns now = .error "transaction not found") ∧
    (∀ t, findFirst st id = some t →
      serviceUpdate st id ns now =
        .ok ({ st with rows := st.rows.map (fun r =>
                if r.id = id ∧ isLive r = true
                then { r with status := ns, updated_at := now } else r) },
             { t with status := ns, updated_at := now }) ∧
      t ∈ st.rows ∧ t.id = id ∧ isLive t = true) := by
  refine ⟨findFirst_eq_none_iff, ?_, ?_⟩
  · intro h
    unfold serviceUpdate
    rw [h]
  · intro t ht
    obtain ⟨hmem, hlive, hid⟩ := findFirst_mem ht
    refine ⟨?_, hmem, hid, hlive⟩
    have hred : serviceUpdate st id ns now =
        .ok ({ st with rows := st.rows.map (fun r =>
                if r.id == id && isLive r
                then { t with status := ns, updated_at := now } else r) },
             { t with status := ns, updated_at := now }) := by
      unfold serviceUpdate
      rw [ht]
    rw [hred]
    have hmap : st.rows.map (fun r =>
          if r.id == id && isLive r
          then { t with status := ns, updated_at := now } else r)
        = st.rows.map (fun r =>
          if r.id = id ∧ isLive r = true
          then { r with status := ns, updated_at := now } else r) := by
      apply List.map_congr_left
      intro r hr
      by_cases h1 : r.id = id
      · by_cases h2 : isLive r = true
        · have hrt : r = t := wellformed_id_unique hw hr hmem (by rw [h1, hid])
          simp [h1, h2, hrt]
        · simp [h1, h2]
      · simp [h1]
    rw [hmap]

/-- Witness for C5: updating the single pending row of a one-row store to
`success` keeps `id`/`user_id`/`amount`/`created_at` and bumps
`updated_at`. -/
theorem C5_update_frame_witness :
    serviceUpdate ⟨[⟨1, 5, 50, TransactionStatus.pending, 100, 100, none⟩], 2⟩
        1 TransactionStatus.success 200 =
      .ok (⟨[⟨1, 5, 50, TransactionStatus.success, 100, 200, none⟩], 2⟩,
           ⟨1, 5, 50, TransactionStatus.success, 100, 200, none⟩) := by
  have hw : Wellformed ⟨[⟨1, 5, 50, TransactionStatus.pending, 100, 100, none⟩], 2⟩ := by
    unfold Wellformed
    simp
  have h := (C5_update_frame ⟨[⟨1, 5, 50, TransactionStatus.pending, 100, 100, none⟩], 2⟩
    1 TransactionStatus.success 200 hw).2.2
    ⟨1, 5, 50, TransactionStatus.pending, 100, 100, none⟩ (by decide)
  exact h.1.trans (by rfl)

/-- Claim C6: after Delete(id) succeeds, every subsequent GetByID, Update
or Delete on that id fails with NotFound, while the row itself is not
purged and remains retrievable via the unscoped (include-deleted) query;
Delete on an absent or already-deleted id fails with NotFound. -/
theorem C6_soft_delete (st : Store) (id : Nat) (now : Nat) (hw : Wellformed st) :
    (findFirst st id = none →
      serviceDelete st id now = .error "transaction not found") ∧
    (∀ st2, serviceDelete st id now = .ok st2 →
      findFirst st2 id = none ∧
      serviceGetByID st2 id = .error "transaction not found" ∧
      (∀ ns now2, serviceUpdate st2 id ns now2 = .error "transaction not found") ∧
      (∀ now2, serviceDelete st2 id now2 = .error "transaction not found") ∧
      (∃ t, findFirst st id = some t ∧
        unscopedFind st2 id = some { t with deleted_at := some now })) := by
  constructor
  · intro h
    unfold serviceDelete
    rw [h]
  · intro st2 hok
    cases hft : findFirst st id with
    | none =>
      unfold serviceDelete at hok
      rw [hft] at hok
      exact absurd hok (by simp)
    | some t =>
      obtain ⟨hmem, hlive, hid⟩ := findFirst_mem hft
      have hred : serviceDelete st id now =
          .ok { st with rows := st.rows.map (fun r =>
                  if r.id == id && isLive r
                  then { r with deleted_at := some now } else r) } := by
        unfold serviceDelete
        rw [hft]
      have hst2 : st2 = { st with rows := st.rows.map (fun r =>
          if r.id == id && isLive r
          then { r with deleted_at := some now } else r) } := by
        rw [hred] at hok
        exact (Except.ok.inj hok).symm
      have hnone : findFirst st2 id = none := by
        rw [hst2]
        apply findFirst_eq_none_iff.mpr
        intro r hr hrlive hrid
        obtain ⟨r0, hr0, rfl⟩ := List.mem_map.mp hr
        by_cases hc : (r0.id == id && isLive r0) = true
        · rw [if_pos hc] at hrlive
          simp [isLive] at hrlive
        · rw [if_neg hc] at hrlive hrid
          exact hc (by simp [hrlive, hrid])
      refine ⟨hnone, ?_, ?_, ?_, ?_⟩
      · unfold serviceGetByID
        rw [hnone]
      · intro ns now2
        unfold serviceUpdate
        rw [hnone]
      · intro now2
        unfold serviceDelete
        rw [hnone]
      · refine ⟨t, rfl, ?_⟩
        have hfid : ∀ r : Transaction,
            (if r.id == id && isLive r
             then { r with deleted_at := some now } else r).id = r.id := by
          intro r
          by_cases hc : (r.id == id && isLive r) = true
          · rw [if_pos hc]
          · rw [if_neg hc]
        have hfilter : (st.rows.map (fun r =>
              if r.id == id && isLive r
              then { r with deleted_at := some now } else r)).filter
                (fun r => r.id == id)
            = (st.rows.filter (fun r => r.id == id)).map (fun r =>
              if r.id == id && isLive r
              then { r with deleted_at := some now } else r) := by
          rw [List.filter_map]
          congr 1
          apply List.filter_congr
          intro r _
          show ((if r.id == id && isLive r
                 then { r with deleted_at := some now } else r).id == id)
              = (r.id == id)
          rw [hfid r]
        have htf : t ∈ st.rows.filter (fun r => r.id == id) :=
          List.mem_filter.mpr ⟨hmem, by simp [hid]⟩
        have hne : st.rows.filter (fun r => r.id == id) ≠ [] :=
          List.ne_nil_of_mem htf
        have hut : unscopedFind st id = some t := by
          unfold unscopedFind
          rw [List.head?_eq_head hne]
          have humem := List.mem_filter.mp (List.head_mem hne)
          have hhead : (st.rows.filter (fun r => r.id == id)).head hne = t := by
            apply wellformed_id_unique hw humem.1 hmem
            have h2 := humem.2
            simp only [beq_iff_eq] at h2
            rw [h2, hid]
          rw [hhead]
        have hu2 : unscopedFind st2 id =
            Option.map (fun r =>
              if r.id == id && isLive r
              then { r with deleted_at := some now } else r) (unscopedFind st id) := by
          rw [hst2]
          unfold unscopedFind
          rw [hfilter, List.head?_map]
        rw [hu2, hut, Option.map_some']
        show some (if (t.id == id && isLive t) = true
            then { t with deleted_at := some now } else t) = _
        rw [if_pos (by simp [hid, hlive])]

/-- Witness for C6: deleting the single live row of a one-row store makes
scoped fetch fail while the unscoped query still returns the row, now
carrying the deletion timestamp. -/
theorem C6_soft_delete_witness :
    serviceGetByID ⟨[⟨1, 5, 50, TransactionStatus.pending, 10, 10, some 50⟩], 2⟩ 1 =
      .error "transaction not found" ∧
    unscopedFind ⟨[⟨1, 5, 50, TransactionStatus.pending, 10, 10, some 50⟩], 2⟩ 1 =
      some ⟨1, 5, 50, TransactionStatus.pending, 10, 10, some 50⟩ := by
  have hw : Wellformed ⟨[⟨1, 5, 50, TransactionStatus.pending, 10, 10, none⟩], 2⟩ := by
    unfold Wellformed
    simp
  have h := (C6_soft_delete ⟨[⟨1, 5, 50, TransactionStatus.pending, 10, 10, none⟩], 2⟩
    1 50 hw).2
    ⟨[⟨1, 5, 50, TransactionStatus.pending, 10, 10, some 50⟩], 2⟩ (by rfl)
  refine ⟨h.2.1, ?_⟩
  obtain ⟨t, ht, hu⟩ := h.2.2.2.2
  have h3 : (⟨1, 5, 50, TransactionStatus.pending, 10, 10, none⟩ : Transaction) = t :=
    Option.some.inj ht
  rw [← h3] at hu
  exact hu
